import Mathlib

/-!
Verification development for the `matfile` package (v5 MAT-File decoding).

Shallow embedding of the Go sources `matfile.go` (tag decoding, element stream,
element dispatch, numeric decoding, decompression dispatch) and `zlib.go`
(the lazily-inflating random-access reader).  Bytes are modelled as `Nat`
values below 256 held in a `List Nat`; machine integers are `Nat`/`Int` with
explicit wrap-around where the code depends on it; Go runtime panics are an
explicit `Outcome.panicked` value; Go's `(value, error)` returns become
`Except`/`Outcome` values.
-/

namespace Matfile

set_option maxRecDepth 16384

/-- Byte order selector (Go `binary.ByteOrder`: `binary.LittleEndian` or
`binary.BigEndian`). -/
inductive ByteOrder
  | little
  | big
deriving DecidableEq, Repr

/-- Go `bo.Uint32` applied to four bytes: assembles the 32-bit value per the
byte order. -/
def uint32 (bo : ByteOrder) (b0 b1 b2 b3 : Nat) : Nat :=
  match bo with
  | .little => b0 + 256 * b1 + 65536 * b2 + 16777216 * b3
  | .big => b3 + 256 * b2 + 65536 * b1 + 16777216 * b0

/-- Go `bo.PutUint32`: the four bytes of `x % 2^32` per the byte order. -/
def putUint32 (bo : ByteOrder) (x : Nat) : List Nat :=
  match bo with
  | .little => [x % 256, x / 256 % 256, x / 65536 % 256, x / 16777216 % 256]
  | .big => [x / 16777216 % 256, x / 65536 % 256, x / 256 % 256, x % 256]

/-- Little-endian value of a list of bytes (helper for the width-generic
unsigned reads `bo.Uint16`/`Uint32`/`Uint64`). -/
def leVal : List Nat → Nat
  | [] => 0
  | b :: rest => b + 256 * leVal rest

/-- Go `bo.UintW(bs)` for width `w` bytes: the byte-order-correct unsigned read
of the first `w` bytes of `bs` (call sites establish `w ≤ bs.length`). -/
def uintRead (bo : ByteOrder) (w : Nat) (bs : List Nat) : Nat :=
  match bo with
  | .little => leVal (bs.take w)
  | .big => leVal ((bs.take w).reverse)

/-- Go conversion of a `w`-byte unsigned value to the signed integer of the
same width (`int8(x)`, `int16(x)`, ...): two's-complement reinterpretation. -/
def toSigned (w : Nat) (x : Nat) : Int :=
  if x < 2 ^ (8 * w - 1) then (x : Int) else (x : Int) - 2 ^ (8 * w)

/-- `matfile.go` `tag`: decoded element header.  `dataType` is a Go `uint8`
(so the 32-bit word is truncated to its low byte), `nBytes` a `uint32`. -/
structure Tag where
  dataType : Nat
  nBytes : Nat
  smallFormat : Bool
deriving DecidableEq, Repr

/-- `matfile.go` `decodeTag` (assumes `len(buf) >= 8`): reads the first 4-byte
word; when its top 16 bits are nonzero the tag is small-format with the length
in those top bits, otherwise the length is the second 4-byte word. -/
def decodeTag (buf : List Nat) (bo : ByteOrder) : Tag :=
  let smallTag := uint32 bo (buf.getD 0 0) (buf.getD 1 0) (buf.getD 2 0) (buf.getD 3 0)
  let small := smallTag / 65536 ≠ 0
  { dataType := smallTag % 256
    nBytes := if small then smallTag / 65536
      else uint32 bo (buf.getD 4 0) (buf.getD 5 0) (buf.getD 6 0) (buf.getD 7 0)
    smallFormat := small }

/-- An `io.NewSectionReader(r, off, len)` payload view: offset and length over
the element stream's underlying source. -/
structure SectionView where
  off : Nat
  len : Nat
deriving DecidableEq, Repr

/-- `matfile.go` `dataElement`: a decoded tag plus the payload view handed out
by the element stream. -/
structure DataElem where
  tag : Tag
  view : SectionView
deriving DecidableEq, Repr

/-- Go error values that the modelled code can return. -/
inductive GoError
  | eof
  | unexpectedEOF
  | closedPipe
  | negativeOffset
deriving DecidableEq, Repr

/-- `matfile.go` `elementStream`: byte order, the underlying `io.ReaderAt`
(modelled as the byte sequence it serves), and the cursor `pos`. -/
structure ElementStream where
  bo : ByteOrder
  src : List Nat
  pos : Nat
deriving DecidableEq, Repr

/-- `matfile.go` `elementStream.nextElement`: reads 8 tag bytes at `pos`
(a `ReadAt` on a byte-backed reader fails exactly when fewer than 8 bytes are
available there), decodes the tag, hands out the payload section view, and
advances the cursor — by 8 for a small-format tag; by
`8 + nBytes + (8 - nBytes % 8) % 8` for a long-format tag, except that the
padding is omitted when the type code is `miCOMPRESSED` (15).  No check that
the payload bytes themselves are available is performed. -/
def nextElement (er : ElementStream) : Except GoError (DataElem × ElementStream) :=
  if er.src.length < er.pos + 8 then .error .eof
  else
    let t := decodeTag ((er.src.drop er.pos).take 8) er.bo
    if t.smallFormat then
      .ok ({ tag := t, view := { off := er.pos + 4, len := t.nBytes } },
           { er with pos := er.pos + 8 })
    else
      let pad := if t.dataType = 15 then 0 else (8 - t.nBytes % 8) % 8
      .ok ({ tag := t, view := { off := er.pos + 8, len := t.nBytes } },
           { er with pos := er.pos + 8 + t.nBytes + pad })

/-- The 8-byte short-format encoding of type code `T` with inline length `L`:
first word `T + L * 2^16`, second word the (up to 4) inline payload bytes
`p4`. -/
def encodeShortTag (bo : ByteOrder) (T L : Nat) (p4 : List Nat) : List Nat :=
  putUint32 bo (T + L * 65536) ++ p4

/-- The 8-byte long-format tag encoding of type code `T` and length `L`:
first word the type code, second word the length; the payload follows the
tag. -/
def encodeLongTag (bo : ByteOrder) (T L : Nat) : List Nat :=
  putUint32 bo T ++ putUint32 bo L

/-- The type codes recognized by the decoder (`miINT8 .. miUTF32`;
8, 10 and 11 are unassigned). -/
def recognizedCodes : List Nat := [1, 2, 3, 4, 5, 6, 7, 9, 12, 13, 14, 15, 16, 17, 18]

/-- Result of a modelled Go computation: normal return, error return, or a Go
runtime panic. -/
inductive Outcome (α : Type)
  | ok (a : α)
  | fail (e : GoError)
  | panicked (msg : String)
deriving DecidableEq, Repr

/-- Map over the normal-return value of an `Outcome`. -/
def Outcome.mapO {α β : Type} (f : α → β) : Outcome α → Outcome β
  | .ok a => .ok (f a)
  | .fail e => .fail e
  | .panicked m => .panicked m

/-- `zlib.go` `zrBufferInit`: number of uncompressed bytes inflated eagerly at
construction. -/
def zrBufferInit : Nat := 256

/-- `zlib.go` `zlibReaderAt`.  The wrapped `z.r` zlib stream is external
(`compress/zlib`); the model carries the full uncompressed content it can
deliver as `inflated`.  `z.r` is a shared reference, so the stream position
persists across method calls and is threaded separately (`consumed` below),
whereas the struct fields themselves — including the `sync.Mutex`, whose
locked/unlocked state is modelled by `lock` and is copied along with the rest
of the struct — are copied into each `ReadAt` call (value receiver). -/
structure ZlibReaderAt where
  inflated : List Nat
  sourceLength : Nat
  buf : List Nat
  lock : Bool
  copiedAll : Bool
  closed : Bool
deriving DecidableEq, Repr

/-- `zlib.go` `newzlibReaderAt`: acquires `zat.lock`, allocates a buffer of
`min(sourceLength, 256)` bytes and eagerly inflates that many bytes into it
(`io.ReadFull`), failing when the inflated stream holds fewer; `copiedAll` is
set when the whole source fits the initial buffer.  `return zat, nil` assigns
the result — copying the struct into the `io.ReaderAt` interface value —
BEFORE the deferred `zat.lock.Unlock()` runs on the local variable, so the
returned copy's mutex is still in the locked state: `lock := true`.  Returns
the reader value together with the number of inflated-stream bytes consumed
so far (the shared zlib stream position).  A `zlib.NewReader` header failure
is not modelled: the claims quantify over payloads that do inflate. -/
def newzlibReaderAt (inflated : List Nat) (sourceLength : Nat) :
    Except GoError (ZlibReaderAt × Nat) :=
  let bufLen := min sourceLength zrBufferInit
  if inflated.length < bufLen then
    .error (if inflated.length = 0 then .eof else .unexpectedEOF)
  else
    .ok ({ inflated := inflated
           sourceLength := sourceLength
           buf := inflated.take bufLen
           lock := true
           copiedAll := decide (sourceLength ≤ zrBufferInit)
           closed := false }, bufLen)

/-- A modelled Go `(n, err)` pair from `ReadAt` — the bytes actually written
into `p` plus the returned error — or a runtime panic, or a call that blocks
forever (`Lock()` on a mutex whose copied state is locked and which no
goroutine can ever unlock: a fatal deadlock in a single-goroutine run). -/
inductive ReadRet
  | ret (bytes : List Nat) (err : Option GoError)
  | panicked
  | blocked
deriving DecidableEq, Repr

/-- The final `n := copy(p, z.buf[off:])` step of `zlibReaderAt.ReadAt`:
slicing `z.buf[off:]` panics when `off` exceeds `len(z.buf)`; otherwise the
copied bytes are returned with `io.EOF` when fewer than `len(p)` were
available. -/
def serveFromBuf (z : ZlibReaderAt) (offN pLen : Nat) : ReadRet :=
  if z.buf.length < offN then .panicked
  else
    let bytes := (z.buf.drop offN).take pLen
    .ret bytes (if bytes.length < pLen then some .eof else none)

/-- `zlib.go` `zlibReaderAt.ReadAt` with `len(p) = pLen`.  The method body
begins with `z.lock.Lock()`; the VALUE receiver has copied the struct — mutex
state included — so when that state is locked (as it is for every reader
`newzlibReaderAt` returns, see there) the call blocks forever and never
reaches the checks below: `.blocked`.  For an unlocked receiver the rest of
the body runs (and the paired `Unlock` on the stack copy is invisible to the
caller): the `z.copiedAll = true` write inside the expansion branch is lost
(value receiver), and `z.buf` is never reassigned after the expansion inflate
(`fullBuf` is filled and dropped), so the copy at the end always reads the
original initial window.  Only the shared zlib stream position (`consumed`,
returned alongside the result) persists.  The checks mirror the source order:
lock, closed, negative offset, offset at or past the source length, then the
one-shot expansion (`io.ReadFull` of the remaining `sourceLength - 256` bytes
from the stream), then the copy out of `z.buf`. -/
def ZlibReaderAt.readAt (z : ZlibReaderAt) (consumed pLen : Nat) (off : Int) :
    ReadRet × Nat :=
  if z.lock then (.blocked, consumed)
  else if z.closed then (.ret [] (some .closedPipe), consumed)
  else if off < 0 then (.ret [] (some .negativeOffset), consumed)
  else if (z.sourceLength : Int) ≤ off then (.ret [] (some .eof), consumed)
  else
    let offN := off.toNat
    if z.copiedAll = false ∧ z.buf.length < offN + pLen then
      let need := z.sourceLength - zrBufferInit
      let avail := z.inflated.length - consumed
      if avail < need then
        (.ret [] (some (if avail = 0 then .eof else .unexpectedEOF)), consumed + avail)
      else
        (serveFromBuf z offN pLen, consumed + need)
    else (serveFromBuf z offN pLen, consumed)

/-- `zlib.go` `(*zlibReaderAt).Close`: pointer receiver; begins with
`z.lock.Lock()`, so it blocks forever (`none`) when the mutex state is locked;
otherwise marks the reader closed (and closes the underlying stream).  Note
this method is not even reachable through the `io.ReaderAt` interface that
`newzlibReaderAt` returns: the boxed value's method set lacks the
pointer-receiver `Close` (the type-assertion panic modelled in
`decompressElement`). -/
def ZlibReaderAt.close (z : ZlibReaderAt) : Option ZlibReaderAt :=
  if z.lock then none else some { z with closed := true }

/-- Decoded values produced by `decodeNumeric`.  Floats are carried as their
IEEE-754 bit patterns (the code produces them by `math.Float32frombits` /
`math.Float64frombits` of the unsigned read of the same width); UTF-16 code
units are kept as read (the surrogate assembly done by `unicode/utf16` is
external). -/
inductive DecVal
  | int8s (v : List Int)
  | uint8s (v : List Nat)
  | int16s (v : List Int)
  | uint16s (v : List Nat)
  | int32s (v : List Int)
  | uint32s (v : List Nat)
  | int64s (v : List Int)
  | uint64s (v : List Nat)
  | singles (bits : List Nat)
  | doubles (bits : List Nat)
  | utf8 (bytes : List Nat)
  | utf16 (units : List Nat)
  | utf32 (codes : List Nat)
deriving DecidableEq, Repr

/-- A data element as consumed by `decodeNumeric`: its type code, declared
payload length, and the bytes its payload view can actually deliver. -/
structure NumElem where
  dataType : Nat
  nBytes : Nat
  data : List Nat
deriving DecidableEq, Repr

/-- Models the loop `for i := range bs { val[i] = conv(bo.UintW(bs[w*i:])) }`
of the multi-byte cases of `decodeNumeric`, where `val` has `valLen` entries.
The Go loop index ranges over ALL byte indices of `bs` (the source iterates
the byte slice, not `val`), so the iteration panics as soon as `w*i + w`
exceeds `bs.length` (the `bs[w*i:]` slice bound or the `binary.UintW` bounds
check) or `i` reaches `valLen` (the store into `val`); for `w ≥ 2` this
happens on every nonempty payload.  `i` is the loop index, `n` the remaining
iteration count (started at `bs.length`). -/
def loopFill (bo : ByteOrder) (w valLen : Nat) (bs : List Nat) :
    Nat → Nat → List Nat → Outcome (List Nat)
  | _, 0, acc => .ok acc.reverse
  | i, n + 1, acc =>
    if bs.length < w * i + w then .panicked "index out of range"
    else if valLen ≤ i then .panicked "index out of range"
    else loopFill bo w valLen bs (i + 1) n (uintRead bo w (bs.drop (w * i)) :: acc)

/-- `matfile.go` `decodeNumeric`: reads `nBytes` payload bytes via
`de.r.ReadAt(bs, 0)` (failing when the view delivers fewer), then switches on
the type code.  The 1-byte cases iterate `bs` directly; the multi-byte cases
run the (buggy) byte-indexed loop `loopFill`; `miUTF32` iterates `runes` and
is correct; unlisted codes return `(nil, nil)`. -/
def decodeNumeric (de : NumElem) (bo : ByteOrder) : Outcome (Option DecVal) :=
  if de.data.length < de.nBytes then .fail .eof
  else
    let bs := de.data.take de.nBytes
    match de.dataType with
    | 1 => .ok (some (.int8s (bs.map (toSigned 1))))
    | 2 => .ok (some (.uint8s bs))
    | 3 => (loopFill bo 2 (de.nBytes / 2) bs 0 bs.length []).mapO
        (fun l => some (.int16s (l.map (toSigned 2))))
    | 4 => (loopFill bo 2 (de.nBytes / 2) bs 0 bs.length []).mapO
        (fun l => some (.uint16s l))
    | 5 => (loopFill bo 4 (de.nBytes / 4) bs 0 bs.length []).mapO
        (fun l => some (.int32s (l.map (toSigned 4))))
    | 6 => (loopFill bo 4 (de.nBytes / 4) bs 0 bs.length []).mapO
        (fun l => some (.uint32s l))
    | 7 => (loopFill bo 4 (de.nBytes / 4) bs 0 bs.length []).mapO
        (fun l => some (.singles l))
    | 9 => (loopFill bo 8 (de.nBytes / 8) bs 0 bs.length []).mapO
        (fun l => some (.doubles l))
    | 12 => (loopFill bo 8 (de.nBytes / 8) bs 0 bs.length []).mapO
        (fun l => some (.int64s (l.map (toSigned 8))))
    | 13 => (loopFill bo 8 (de.nBytes / 8) bs 0 bs.length []).mapO
        (fun l => some (.uint64s l))
    | 16 => .ok (some (.utf8 bs))
    | 17 => (loopFill bo 2 (de.nBytes / 2) bs 0 bs.length []).mapO
        (fun l => some (.utf16 l))
    | 18 => .ok (some (.utf32 ((List.range (de.nBytes / 4)).map
        (fun i => uintRead bo 4 (bs.drop (4 * i))))))
    | _ => .ok none

/-- `matfile.go` `decompressElement`: asserts the payload reader to
`io.Reader` (always an `io.SectionReader` here, so that succeeds), opens a
`zlibReaderAt` over it with inflated length `nBytes`, then executes
`defer zrat.(io.Closer).Close()`.  `newzlibReaderAt` returns a `zlibReaderAt`
VALUE inside the `io.ReaderAt` interface, and `Close` is declared on the
pointer receiver, so the value's method set has no `Close` and the `io.Closer`
type assertion panics when the defer statement is evaluated.  The statements
after it (element stream construction, `nextElement`) are unreachable, hence
the normal-return type `Empty`.  zlib inflation is external; the model takes
the inflated content of the element's payload as `inflated`. -/
def decompressElement (inflated : List Nat) (nBytes : Nat) : Outcome Empty :=
  match newzlibReaderAt inflated nBytes with
  | .error e => .fail e
  | .ok _ => .panicked "interface conversion: matfile.zlibReaderAt is not io.Closer: missing method Close"

/-- A data element as consumed by `decodeElement`: tag, the bytes its payload
view delivers, and — for a `miCOMPRESSED` element — the uncompressed content
of that payload (the external zlib inflation result). -/
structure ElemInput where
  tag : Tag
  data : List Nat
  inflated : List Nat
deriving DecidableEq, Repr

/-- `matfile.go` `decodeArray` ("decodeArray decodes structured array data"):
the body is the unimplemented stub `panic("decode Array not implemented")` —
the function panics on every input, its arguments unused, before the
unreachable `return nil, nil`. -/
def decodeArray (_de : ElemInput) (_bo : ByteOrder) : Outcome (Option DecVal) :=
  .panicked "decode Array not implemented"

/-- `matfile.go` `decodeElement`: dispatches on the tag's type code — the
listed primitive codes to `decodeNumeric`, `miMATRIX` (14) to `decodeArray`
(which panics, see there), `miCOMPRESSED` (15) through `decompressElement`
(whose recursion into the inner element is unreachable, see
`decompressElement`), and anything else falls through the switch to
`return nil, nil`. -/
def decodeElement (e : ElemInput) (bo : ByteOrder) : Outcome (Option DecVal) :=
  if e.tag.dataType ∈ ([1, 2, 3, 4, 5, 6, 7, 9, 12, 13, 16, 17, 18] : List Nat) then
    decodeNumeric { dataType := e.tag.dataType, nBytes := e.tag.nBytes, data := e.data } bo
  else if e.tag.dataType = 14 then decodeArray e bo
  else if e.tag.dataType = 15 then
    match decompressElement e.inflated e.tag.nBytes with
    | .ok x => x.elim
    | .fail err => .fail err
    | .panicked m => .panicked m
  else .ok none

/-- Payload of a nested `1×1` `Uint8`-class matrix element named with the
empty name and holding the single value `v`: array flags
(`miUINT32`, 8 bytes, class 9), dimensions (`miINT32`, `[1,1]`), empty name
(`miINT8`, length 0), and a short-format `miUINT8` real part `[v]`. -/
def innerMatrixPayload (v : Nat) : List Nat :=
  putUint32 .little 6 ++ putUint32 .little 8 ++ putUint32 .little 9 ++ putUint32 .little 0
  ++ putUint32 .little 5 ++ putUint32 .little 8 ++ putUint32 .little 1 ++ putUint32 .little 1
  ++ putUint32 .little 1 ++ putUint32 .little 0
  ++ putUint32 .little (2 + 65536) ++ [v, 0, 0, 0]

/-- Payload of a Cell-class matrix element of dimensions `[1, 2]` named `"c"`,
containing two nested numeric matrix elements (values 7 and 8): array flags
(class 1), dimensions `[1,2]`, short-format name, then two long-format
`miMATRIX` sub-elements of 48 bytes each. -/
def cellPayload : List Nat :=
  putUint32 .little 6 ++ putUint32 .little 8 ++ putUint32 .little 1 ++ putUint32 .little 0
  ++ putUint32 .little 5 ++ putUint32 .little 8 ++ putUint32 .little 1 ++ putUint32 .little 2
  ++ putUint32 .little (1 + 65536) ++ [99, 0, 0, 0]
  ++ putUint32 .little 14 ++ putUint32 .little 48 ++ innerMatrixPayload 7
  ++ putUint32 .little 14 ++ putUint32 .little 48 ++ innerMatrixPayload 8

/-- C1: the claim says that for a `Compressed` element whose payload inflates
to a single well-formed inner element, `decodeElement` reads that inner
element from a fresh element stream over the decompressing source and returns
its decoded value with no error and no crash.  The code instead panics on
every such element: `decompressElement` executes
`defer zrat.(io.Closer).Close()`, but `newzlibReaderAt` returns the
`zlibReaderAt` by value and `Close` has a pointer receiver, so the `io.Closer`
type assertion fails at runtime before the inner element is ever read.  Here
the payload inflates to exactly one well-formed short-format `miUINT8`
element (declared inflated length 8 matches), and the dispatch panics. -/
theorem decodeElement_compressed_panics :
    decodeElement
      { tag := { dataType := 15, nBytes := 8, smallFormat := false },
        data := [], inflated := [2, 0, 1, 0, 42, 0, 0, 0] } ByteOrder.little
    = .panicked "interface conversion: matfile.zlibReaderAt is not io.Closer: missing method Close" := by
  decide

/-- C2: the claim says `decodeNumeric` on a multi-byte primitive element of
payload length `L` returns `L / width` byte-order-correct values and returns
normally for every well-formed payload.  The code's loops iterate
`for i := range bs` over ALL byte indices while writing `val[i]` into a slice
of only `L / width` entries, so every nonempty multi-byte payload panics.
Here: one little-endian `miDOUBLE` (type 9) value `1.0` (bytes
`00 00 00 00 00 00 f0 3f`, `L = 8`); the claim expects `[1.0]`, the code
panics at loop index 1. -/
theorem decodeNumeric_double_panics :
    decodeNumeric { dataType := 9, nBytes := 8, data := [0, 0, 0, 0, 0, 0, 240, 63] }
      ByteOrder.little = .panicked "index out of range" := by
  decide

/-- C8: the claim says `decodeElement` returns an error for a tag type code
outside the recognized set rather than silently producing empty data.  The
code's switch has no default error: it falls through to `return nil, nil`.
Here type code 8 (unassigned, between `miSINGLE = 7` and `miDOUBLE = 9`)
yields a nil value and a nil error. -/
theorem decodeElement_unknown_silent :
    decodeElement
      { tag := { dataType := 8, nBytes := 4, smallFormat := false },
        data := [1, 2, 3, 4], inflated := [] } ByteOrder.little = .ok none := by
  decide

/-- C3: the claim says that for inflated length `N > 256` a read confined to
`[0, 256)` performs no expansion (and succeeds), and the first read touching
`[256, N)` triggers exactly one further inflation after which every read
returns the requested bytes with no further inflate call.  No `ReadAt` on a
reader returned by `newzlibReaderAt` ever returns at all: the constructor
locks `zat.lock` and `return zat, nil` copies the struct — mutex state
included — into the `io.ReaderAt` result before the deferred `Unlock` runs on
the local variable, so `ReadAt`'s opening `z.lock.Lock()` on the (again
copied) locked mutex blocks forever.  With `N = 260`, both a 4-byte read at
offset 0 (inside the window) and the first read touching offset 256 deadlock
instead of copying from the window or expanding it.  (Behind the lock the
expansion is also broken — `fullBuf` is never assigned to `z.buf` and the
value receiver drops `copiedAll` — but that code is unreachable.) -/
theorem zlib_readAt_deadlock :
    ∃ z c, newzlibReaderAt (List.replicate 260 1) 260 = .ok (z, c)
      ∧ z.lock = true
      ∧ z.readAt c 4 0 = (.blocked, c)
      ∧ z.readAt c 4 256 = (.blocked, c) := by
  exact ⟨_, _, rfl, rfl, rfl, rfl⟩

/-- C9: the claim states the boundary contract — zero bytes with end-of-data
at `offset = N`, an invalid-offset error for negative offsets, a closed error
after close, and available-bytes-plus-end-of-data for a range extending past
`N`.  All of those checks sit after `z.lock.Lock()` in `ReadAt`, and the
mutex state copied into the returned reader is locked (the constructor's
deferred `Unlock` runs only on its local variable after the result copy is
made), so every such call blocks forever instead of returning the claimed
results — shown here for `N = 300` at offset 300 (`= N`), offset `-1`, and a
150-byte read at offset 200 (range past `N`).  The closed clause is doubly
unreachable: the pointer-receiver `Close` is not in the method set of the
boxed value `newzlibReaderAt` returns. -/
theorem zlib_readAt_boundary_deadlock :
    ∃ z c, newzlibReaderAt (List.replicate 300 1) 300 = .ok (z, c)
      ∧ z.readAt c 8 300 = (.blocked, c)
      ∧ z.readAt c 8 (-1) = (.blocked, c)
      ∧ z.readAt c 150 200 = (.blocked, c) := by
  exact ⟨_, _, rfl, rfl, rfl, rfl⟩

/-- C4: the claim says that for every Matrix element payload the array decoder
decodes, in fixed order, the array-flags, dimensions and name sub-elements,
then branches on the array class — in particular that a Cell array of
dimensions `[1, 2]` containing two nested numeric Matrix elements decodes to
a variable with exactly 2 cells in stream order.  The source's `decodeArray`
decodes nothing: its body is the stub `panic("decode Array not implemented")`
(contradicting its own doc comment "decodeArray decodes structured array
data"), so dispatching even this perfectly well-formed 152-byte Cell payload
panics before any sub-element is read. -/
theorem decodeArray_matrix_panics :
    decodeElement
      { tag := { dataType := 14, nBytes := 152, smallFormat := false },
        data := cellPayload, inflated := [] } ByteOrder.little
      = .panicked "decode Array not implemented"
    ∧ cellPayload.length = 152 := by
  decide

/-- C5: after `nextElement` returns a long-format element of payload length
`L = tag.nBytes`, the cursor points `8 + L + ((8 - L % 8) % 8)` bytes past the
element's tag start — except that a `Compressed` (type code 15) element gets
no padding, leaving the cursor at exactly `8 + L`; in both cases the payload
view starts at tag start + 8 with length `L`. -/
theorem nextElement_long_advance (er : ElementStream) (de : DataElem)
    (er' : ElementStream) (h : nextElement er = .ok (de, er'))
    (hl : de.tag.smallFormat = false) :
    de.view = { off := er.pos + 8, len := de.tag.nBytes }
    ∧ er'.pos = er.pos + 8 + de.tag.nBytes
        + (if de.tag.dataType = 15 then 0 else (8 - de.tag.nBytes % 8) % 8) := by
  unfold nextElement at h
  dsimp only at h
  split at h
  · exact absurd h (by simp)
  · split at h
    · simp only [Except.ok.injEq, Prod.mk.injEq] at h
      obtain ⟨rfl, rfl⟩ := h
      simp_all
    · simp only [Except.ok.injEq, Prod.mk.injEq] at h
      obtain ⟨rfl, rfl⟩ := h
      exact ⟨rfl, rfl⟩

/-- C5 witness: a little-endian long-format `miDOUBLE` tag of length 5 at
cursor 0; `nextElement` hands out the payload view at offset 8 of length 5
and leaves the cursor at 16 = 8 + 5 + 3. -/
theorem nextElement_long_advance_witness :
    ({ tag := { dataType := 9, nBytes := 5, smallFormat := false },
       view := { off := 8, len := 5 } } : DataElem).view
      = { off := (0 : Nat) + 8,
          len := ({ tag := { dataType := 9, nBytes := 5, smallFormat := false },
                    view := { off := 8, len := 5 } } : DataElem).tag.nBytes }
    ∧ ({ bo := ByteOrder.little,
         src := encodeLongTag ByteOrder.little 9 5 ++ [1, 2, 3, 4, 5],
         pos := 16 } : ElementStream).pos
      = 0 + 8 + 5 + (if (9 : Nat) = 15 then 0 else (8 - 5 % 8) % 8) :=
  nextElement_long_advance
    { bo := ByteOrder.little,
      src := encodeLongTag ByteOrder.little 9 5 ++ [1, 2, 3, 4, 5], pos := 0 }
    { tag := { dataType := 9, nBytes := 5, smallFormat := false },
      view := { off := 8, len := 5 } }
    { bo := ByteOrder.little,
      src := encodeLongTag ByteOrder.little 9 5 ++ [1, 2, 3, 4, 5], pos := 16 }
    (by rfl) (by rfl)

/-- C10: for every tag decoded as short-format, `nextElement` advances the
cursor by exactly 8 regardless of the 16-bit length field's value, and hands
out a payload view starting at cursor + 4 with the declared length; when that
declared length exceeds 4, the view extends past the 8-byte tag into the
bytes of the following element, on which the advanced cursor lands. -/
theorem nextElement_short_advance (er : ElementStream) (de : DataElem)
    (er' : ElementStream) (h : nextElement er = .ok (de, er'))
    (hs : de.tag.smallFormat = true) :
    er'.pos = er.pos + 8
    ∧ de.view = { off := er.pos + 4, len := de.tag.nBytes }
    ∧ (4 < de.tag.nBytes → er'.pos < de.view.off + de.view.len) := by
  unfold nextElement at h
  dsimp only at h
  split at h
  · exact absurd h (by simp)
  · split at h
    · simp only [Except.ok.injEq, Prod.mk.injEq] at h
      obtain ⟨rfl, rfl⟩ := h
      refine ⟨rfl, rfl, fun h4 => ?_⟩
      dsimp only at h4 ⊢
      omega
    · simp only [Except.ok.injEq, Prod.mk.injEq] at h
      obtain ⟨rfl, rfl⟩ := h
      simp_all

/-- C10 witness: a malformed little-endian short-format tag declaring length
16 (`smallTag = 9 + 16·2^16`): the cursor advances to 8 while the payload view
is `[4, 20)`, overlapping the following element's bytes. -/
theorem nextElement_short_advance_witness :
    ({ bo := ByteOrder.little,
       src := putUint32 ByteOrder.little (9 + 16 * 65536) ++ [0, 0, 0, 0],
       pos := 8 } : ElementStream).pos = 0 + 8
    ∧ ({ tag := { dataType := 9, nBytes := 16, smallFormat := true },
         view := { off := 4, len := 16 } } : DataElem).view
      = { off := (0 : Nat) + 4,
          len := ({ tag := { dataType := 9, nBytes := 16, smallFormat := true },
                    view := { off := 4, len := 16 } } : DataElem).tag.nBytes }
    ∧ (4 < ({ tag := { dataType := 9, nBytes := 16, smallFormat := true },
              view := { off := 4, len := 16 } } : DataElem).tag.nBytes →
        ({ bo := ByteOrder.little,
           src := putUint32 ByteOrder.little (9 + 16 * 65536) ++ [0, 0, 0, 0],
           pos := 8 } : ElementStream).pos
          < ({ tag := { dataType := 9, nBytes := 16, smallFormat := true },
               view := { off := 4, len := 16 } } : DataElem).view.off
            + ({ tag := { dataType := 9, nBytes := 16, smallFormat := true },
                 view := { off := 4, len := 16 } } : DataElem).view.len) :=
  nextElement_short_advance
    { bo := ByteOrder.little,
      src := putUint32 ByteOrder.little (9 + 16 * 65536) ++ [0, 0, 0, 0], pos := 0 }
    { tag := { dataType := 9, nBytes := 16, smallFormat := true },
      view := { off := 4, len := 16 } }
    { bo := ByteOrder.little,
      src := putUint32 ByteOrder.little (9 + 16 * 65536) ++ [0, 0, 0, 0], pos := 8 }
    (by rfl) (by rfl)

/-- C7 counterexample: the claim says `nextElement` fails with a truncated
stream error when fewer than `tag.length` payload bytes are available.  Here
the source is exactly the 8 tag bytes of a long-format tag declaring 16
payload bytes — no payload byte is available — yet `nextElement` returns the
element (with a payload view pointing past the end of the source). -/
theorem nextElement_missing_payload_ok :
    (encodeLongTag ByteOrder.little 9 16).length = 8
    ∧ nextElement
        { bo := ByteOrder.little, src := encodeLongTag ByteOrder.little 9 16, pos := 0 }
      = .ok ({ tag := { dataType := 9, nBytes := 16, smallFormat := false },
               view := { off := 8, len := 16 } },
             { bo := ByteOrder.little, src := encodeLongTag ByteOrder.little 9 16,
               pos := 24 }) := ⟨rfl, rfl⟩

/-- C7 (amended): `nextElement` fails with a truncated-stream error exactly
when fewer than 8 bytes are available at the cursor for the tag; it performs
no payload availability check — once the tag is read it returns the data
element regardless of how many payload bytes remain, and a payload truncation
only surfaces when the payload view is later read. -/
theorem nextElement_truncation (er : ElementStream) :
    (∃ e, nextElement er = .error e) ↔ er.src.length < er.pos + 8 := by
  unfold nextElement
  split
  · next hc => exact ⟨fun _ => hc, fun _ => ⟨.eof, rfl⟩⟩
  · next hc =>
    constructor
    · rintro ⟨e, he⟩
      dsimp only at he
      split at he <;> exact absurd he (by simp)
    · intro hlt
      exact absurd hlt hc

/-- Reassembling the four bytes produced by `putUint32` gives back the value
(for values below `2^32`). -/
theorem uint32_putUint32 (bo : ByteOrder) (x : Nat) (hx : x < 4294967296) :
    uint32 bo ((putUint32 bo x).getD 0 0) ((putUint32 bo x).getD 1 0)
      ((putUint32 bo x).getD 2 0) ((putUint32 bo x).getD 3 0) = x := by
  cases bo <;>
    simp only [putUint32, uint32, List.getD_cons_zero, List.getD_cons_succ] <;> omega

/-- `decodeTag` on a buffer whose first word holds `x < 2^32`: small-format
exactly when the top 16 bits of `x` are nonzero, with the length taken from
those bits, else from the second word. -/
theorem decodeTag_word (bo : ByteOrder) (x : Nat) (hx : x < 4294967296) (p4 : List Nat) :
    decodeTag (putUint32 bo x ++ p4) bo
      = { dataType := x % 256
          nBytes := if x / 65536 ≠ 0 then x / 65536
            else uint32 bo (p4.getD 0 0) (p4.getD 1 0) (p4.getD 2 0) (p4.getD 3 0)
          smallFormat := decide (x / 65536 ≠ 0) } := by
  cases bo <;>
  · simp only [decodeTag, putUint32, uint32, List.cons_append, List.nil_append,
      List.getD_cons_zero, List.getD_cons_succ]
    have hsum : (x % 256) + 256 * (x / 256 % 256) + 65536 * (x / 65536 % 256)
        + 16777216 * (x / 16777216 % 256) = x := by omega
    simp only [hsum]

/-- C6 counterexample: the claim quantifies over every length `L ≤ 4`, but
the short-format encoding of `(miINT8, L = 0)` (first word `1 + 0·2^16`,
second word the zero inline payload) has zero top 16 bits, so `decodeTag`
reads it as long-format: `smallFormat` is `false`, not `true` as the claim
requires. -/
theorem decodeTag_shortZero_not_small :
    decodeTag (encodeShortTag ByteOrder.little 1 0 [0, 0, 0, 0]) ByteOrder.little
      ≠ { dataType := 1, nBytes := 0, smallFormat := true } := by
  decide

/-- C6 (amended): for every recognized type code `T` and every length
`1 ≤ L ≤ 4`, decoding the 8-byte short-format encoding of `(T, L)` yields
`{T, L, shortFormat = true}` (the `L = 0` encoding coincides with the
long-format zero-length encoding and decodes with `shortFormat = false`);
for every `L` encodable only in long format (`L > 4`, below `2^32`), decoding
the long-format encoding yields `{T, L, shortFormat = false}` and
`nextElement` places the payload view exactly at byte 8 after the tag
start. -/
theorem decodeTag_tag_law (T L : Nat) (bo : ByteOrder) (hT : T ∈ recognizedCodes) :
    (∀ p4 : List Nat, 1 ≤ L → L ≤ 4 →
        decodeTag (encodeShortTag bo T L p4) bo
          = { dataType := T, nBytes := L, smallFormat := true })
    ∧ (4 < L → L < 4294967296 → ∀ rest : List Nat,
        decodeTag (encodeLongTag bo T L) bo
          = { dataType := T, nBytes := L, smallFormat := false }
        ∧ (nextElement { bo := bo, src := encodeLongTag bo T L ++ rest, pos := 0 }).map
            (fun p => (p.1.tag, p.1.view.off, p.1.view.len))
          = .ok ({ dataType := T, nBytes := L, smallFormat := false }, 8, L)) := by
  have hTb : T ≤ 18 := (by decide : ∀ x ∈ recognizedCodes, x ≤ 18) T hT
  have hlong : L < 4294967296 → decodeTag (encodeLongTag bo T L) bo
      = { dataType := T, nBytes := L, smallFormat := false } := by
    intro h32
    rw [encodeLongTag, decodeTag_word bo T (by omega) (putUint32 bo L)]
    rw [uint32_putUint32 bo L h32]
    have hq : T / 65536 = 0 := by omega
    have hm : T % 256 = T := by omega
    simp [hq, hm]
  constructor
  · intro p4 h1 h4
    rw [encodeShortTag, decodeTag_word bo (T + L * 65536) (by omega) p4]
    have hq : (T + L * 65536) / 65536 = L := by omega
    have hm : (T + L * 65536) % 256 = T := by omega
    have hz : L ≠ 0 := by omega
    simp [hq, hm, hz]
  · intro h4 h32 rest
    refine ⟨hlong h32, ?_⟩
    have hlen : (encodeLongTag bo T L).length = 8 := by cases bo <;> rfl
    unfold nextElement
    dsimp only
    rw [if_neg (by simp [List.length_append, hlen])]
    rw [List.drop_zero, List.take_left' hlen, hlong h32]
    rfl

/-- C6 witness: the tag law applied at `(T, L) = (miDOUBLE, 3)` for the short
format and `(miDOUBLE, 100)` for the long format, little-endian. -/
theorem decodeTag_tag_law_witness :
    decodeTag (encodeShortTag ByteOrder.little 9 3 [5, 6, 7, 0]) ByteOrder.little
      = { dataType := 9, nBytes := 3, smallFormat := true }
    ∧ decodeTag (encodeLongTag ByteOrder.little 9 100) ByteOrder.little
      = { dataType := 9, nBytes := 100, smallFormat := false } :=
  ⟨(decodeTag_tag_law 9 3 ByteOrder.little (by decide)).1 [5, 6, 7, 0]
      (by decide) (by decide),
   ((decodeTag_tag_law 9 100 ByteOrder.little (by decide)).2
      (by decide) (by decide) []).1⟩

end Matfile
